import Mathlib

/-!
Shallow embedding of the GovChatbotFAQ scrapers (ecitizen_go_ke/faq.py,
health_go_ke/faq.py, kra_go_ke/taxation.py, googleslide/google_slides_faq_spider.py)
and proofs about the FAQ extraction pipeline.  Strings are modelled as Lean
strings (lists of characters); Python truthiness of strings and options is
modelled explicitly at every use site.
-/

set_option autoImplicit false

namespace GovFAQ

/-- Whitespace test matching the characters Python treats as whitespace in
`str.strip`, `str.split` and the regex class `\s` (space, tab, newline,
carriage return, vertical tab, form feed). -/
def isPySpace (c : Char) : Bool :=
  c = ' ' || c = '\t' || c = '\n' || c = '\r' || c.toNat = 11 || c.toNat = 12

/-- Character-list core of Python `str.strip()`: drop whitespace from both ends. -/
def stripChars (cs : List Char) : List Char :=
  ((cs.dropWhile isPySpace).reverse.dropWhile isPySpace).reverse

/-- Python `s.strip()`. -/
def pyStrip (s : String) : String :=
  ⟨stripChars s.data⟩

/-- Python `sep.join(parts)`. -/
def pyJoin (sep : String) : List String → String
  | [] => ""
  | [s] => s
  | s :: t :: rest => s ++ sep ++ pyJoin sep (t :: rest)

/-- The shared normalization idiom of ecitizen_go_ke/faq.py line 25 and
kra_go_ke/taxation.py line 41:
`" ".join(part.strip() for part in parts if part.strip())`. -/
def normalize (parts : List String) : String :=
  pyJoin " " (parts.filterMap fun p => if pyStrip p = "" then none else some (pyStrip p))

/-- The first character exists and is whitespace. -/
def hasLeadingWS (cs : List Char) : Bool :=
  (cs.head?.map isPySpace).getD false

/-- The last character exists and is whitespace. -/
def hasTrailingWS (cs : List Char) : Bool :=
  (cs.getLast?.map isPySpace).getD false

/-- Two consecutive whitespace characters occur somewhere. -/
def hasDoubleWS : List Char → Bool
  | [] => false
  | [_] => false
  | c :: d :: rest => (isPySpace c && isPySpace d) || hasDoubleWS (d :: rest)

/-- Helper for Python `str.split()` with no separator: accumulate the current
word (reversed) and cut at whitespace runs. -/
def pyWordsAux : List Char → List Char → List (List Char)
  | [], acc => if acc = [] then [] else [acc.reverse]
  | c :: cs, acc =>
    if isPySpace c then
      if acc = [] then pyWordsAux cs [] else acc.reverse :: pyWordsAux cs []
    else pyWordsAux cs (c :: acc)

/-- `len(s.split())`: number of maximal non-whitespace runs. -/
def pyWordCount (s : String) : Nat :=
  (pyWordsAux s.data []).length

/-- Helper for `re.sub(r'\s+', ' ', s)`; the flag records whether the previous
character was part of a whitespace run already replaced. -/
def collapseAux : List Char → Bool → List Char
  | [], _ => []
  | c :: cs, prevWS =>
    if isPySpace c then
      if prevWS then collapseAux cs true else ' ' :: collapseAux cs true
    else c :: collapseAux cs false

/-- `re.sub(r'\s+', ' ', s)`: every maximal whitespace run becomes one space. -/
def collapseWS (s : String) : String :=
  ⟨collapseAux s.data false⟩

/-- Python `s.endswith('.')`. -/
def endsWithDot (s : String) : Bool :=
  s.data.getLast? = some '.'

/-- The canonical record shape of GovChatbotFAQItem (items.py); `date_posted`
and `date_updated` are always set to None by every spider and are omitted. -/
structure FAQRecord where
  question : Option String
  answer : Option String
  category : String
  tags : List String
  image : Option String
  deriving DecidableEq, Repr

/-- One `li[id^="faq_"]` container as seen by ECitizenFAQSpider.parse:
the result of the question selector `.get()` and the text parts returned by
the answer selector `.getall()`. -/
structure ECContainer where
  questionSel : Option String
  answerParts : List String
  deriving DecidableEq, Repr

/-- Loop body of ECitizenFAQSpider.parse (ecitizen_go_ke/faq.py lines 15-34).
`question.strip() if question else None` maps a Python-falsy selector result
(None or the empty string) to None. -/
def ecitizenParseItem (c : ECContainer) : FAQRecord :=
  let answer := normalize c.answerParts
  ⟨(match c.questionSel with
    | none => none
    | some q => if q = "" then none else some (pyStrip q)),
   (if answer = "" then none else some (pyStrip answer)),
   "eCitizen General", ["eCitizen"], none⟩

/-- One FAQ container of HealthFAQSpider.parse_sha: the aria-label attribute
and the plain `button span::text` node. -/
structure SHAContainer where
  ariaLabel : Option String
  spanText : Option String
  deriving DecidableEq, Repr

/-- Tail of the pattern `\s*,\s*Answer:\s*(.*)` (with DOTALL): after the lazy
question group, skip whitespace, require a comma, skip whitespace, require the
literal `Answer:`, skip whitespace, and capture the rest as group 2. -/
def shaRestMatch (rest : List Char) : Option (List Char) :=
  match rest.dropWhile isPySpace with
  | ',' :: r2 =>
    if (r2.dropWhile isPySpace).take 7 = "Answer:".data then
      some (((r2.dropWhile isPySpace).drop 7).dropWhile isPySpace)
    else none
  | _ => none

/-- Lazy group `(.*?)`: the shortest prefix of the input whose remainder
matches the `, Answer:` tail; returns (group 1, group 2). -/
def shaSplit (accQ : List Char) : List Char → Option (List Char × List Char)
  | [] =>
    match shaRestMatch [] with
    | some ans => some (accQ.reverse, ans)
    | none => none
  | c :: cs =>
    match shaRestMatch (c :: cs) with
    | some ans => some (accQ.reverse, ans)
    | none => shaSplit (c :: accQ) cs

/-- `re.search(r'Question:\s*(.*?)\s*,\s*Answer:\s*(.*)', s, re.DOTALL)`:
scan for the leftmost position where the literal `Question:` begins a full
match; the greedy `\s*` after it takes the maximal whitespace run. -/
def shaSearch : List Char → Option (List Char × List Char)
  | [] => none
  | c :: cs =>
    if (c :: cs).take 9 = "Question:".data then
      match shaSplit [] (((c :: cs).drop 9).dropWhile isPySpace) with
      | some qa => some qa
      | none => shaSearch cs
    else shaSearch cs

/-- Loop body of HealthFAQSpider.parse_sha (health_go_ke/faq.py lines 30-56),
including the Python truthiness test `if aria_label:` and the emission guard
`if question and answer:`. -/
def parseSha (c : SHAContainer) : Option FAQRecord :=
  let qa : Option String × String :=
    match c.ariaLabel with
    | some al =>
      if al = "" then (c.spanText, "Could not find aria-label.")
      else
        match shaSearch al.data with
        | some (q, a) => (some (pyStrip ⟨q⟩), pyStrip ⟨a⟩)
        | none => (c.spanText, "Could not parse answer from aria-label.")
    | none => (c.spanText, "Could not find aria-label.")
  match qa with
  | (some q, a) =>
    if q ≠ "" ∧ a ≠ "" then
      some ⟨some (pyStrip q), some (pyStrip a), "Social Health Authority",
            ["SHA", "health", "Kenya"], none⟩
    else none
  | (none, _) => none

/-- One `div.grid-item` of a KRA category page: the `p.title::text` selector
result and the accordion text parts. -/
structure KRAItem where
  titleSel : Option String
  answerParts : List String
  deriving DecidableEq, Repr

/-- One KRA category page: the active-category link text, the FAQ grid items,
and the target of the Next pagination link (pages are keyed by Nat). -/
structure KRAPage where
  activeCategory : Option String
  items : List KRAItem
  nextLink : Option Nat
  deriving DecidableEq, Repr

/-- Item loop of GovChatbotFAQSpider.parse_category (kra_go_ke/taxation.py
lines 28-52): `category_name.strip() if category_name else 'General'` and
`[category_name.strip()] if category_name else []` both test Python
truthiness of the selector result. -/
def parseCategoryItems (p : KRAPage) : List FAQRecord :=
  p.items.map fun it =>
    ⟨(match it.titleSel with
      | none => none
      | some q => if q = "" then none else some (pyStrip q)),
     some (normalize it.answerParts),
     (match p.activeCategory with
      | none => "General"
      | some c => if c = "" then "General" else pyStrip c),
     (match p.activeCategory with
      | none => []
      | some c => if c = "" then [] else [pyStrip c]),
     none⟩

/-- Fuel-indexed unfolding of the recursive parse_category traversal
(taxation.py lines 54-58): emit this page, then follow the Next link with the
same handler.  `none` means the fuel ran out before the chain ended, so
`∀ fuel, crawl pages fuel start = none` models non-termination. -/
def crawl (pages : Nat → KRAPage) : Nat → Nat → Option (List FAQRecord)
  | 0, _ => none
  | fuel + 1, pid =>
    match (pages pid).nextLink with
    | none => some (parseCategoryItems (pages pid))
    | some nxt => (crawl pages fuel nxt).map (fun rs => parseCategoryItems (pages pid) ++ rs)

/-- The chain of Next links starting at `pid` reaches a page with no Next link
in at most `n` page visits. -/
def haltsWithin (pages : Nat → KRAPage) : Nat → Nat → Bool
  | 0, _ => false
  | n + 1, pid =>
    match (pages pid).nextLink with
    | none => true
    | some nxt => haltsWithin pages n nxt

/-- A page graph whose pagination links form a cycle: every page links back to
itself. -/
def cyclePages : Nat → KRAPage :=
  fun pid => ⟨some "Loop", [], some pid⟩

/-- Scenario of C6: page 0 has two grid items and a Next link to page 1. -/
def c6page0 : KRAPage :=
  ⟨some "VAT", [⟨some "Q1", ["A1"]⟩, ⟨some "Q2", ["A2"]⟩], some 1⟩

/-- Scenario of C6: terminal page 1 has one grid item and no Next link. -/
def c6page1 : KRAPage :=
  ⟨some "VAT", [⟨some "Q3", ["A3"]⟩], none⟩

/-- Scenario of C6: the two-page category. -/
def c6pages : Nat → KRAPage :=
  fun pid => if pid = 0 then c6page0 else c6page1

/-- One entry of `shape.text.textElements` in the Slides API response, with
the Python-side access defaults already applied: a missing textRun or content
reads as `""`, a missing bold flag as `false`, a missing fontSize magnitude
as `12` (google_slides_faq_spider.py lines 43-45 and 95-97). -/
structure SlideTextRun where
  content : String
  bold : Bool
  fontSize : Int
  deriving DecidableEq, Repr

/-- One `pageElements` entry: `shapeText` is `some runs` exactly when
`'shape' in element and 'text' in element['shape']`; `translateY` defaults to
0 when the transform is missing; `image` is `some url` exactly when the
element has an image with a contentUrl. -/
structure PageElem where
  shapeText : Option (List SlideTextRun)
  translateY : Int
  image : Option String
  deriving DecidableEq, Repr

/-- The dict appended to `text_elements` in SlideExtractorSpider.start. -/
structure TElem where
  text : String
  translateY : Int
  is_title : Bool
  deriving DecidableEq, Repr

/-- SlideExtractorSpider.is_title_element: style of the first text run; an
empty textElements list raises IndexError, caught as False. -/
def is_title_element (runs : List SlideTextRun) : Bool :=
  match runs with
  | [] => false
  | r :: _ => r.bold && r.fontSize ≥ 18

/-- Collection loop of start() (lines 41-56): join the text runs of each shape
element, strip, and keep the non-empty ones with position and title flag. -/
def collectTextElems (slide : List PageElem) : List TElem :=
  slide.filterMap fun e =>
    match e.shapeText with
    | none => none
    | some runs =>
      if pyStrip (String.join (runs.map SlideTextRun.content)) = "" then none
      else some ⟨pyStrip (String.join (runs.map SlideTextRun.content)),
                 e.translateY, is_title_element runs⟩

/-- Stable insertion for `text_elements.sort(key=lambda x: x['translateY'])`:
an element moves past exactly the earlier elements with strictly smaller key,
so equal keys keep their original order, as Python's stable sort does. -/
def insertY (t : TElem) : List TElem → List TElem
  | [] => [t]
  | u :: us => if u.translateY < t.translateY then u :: insertY t us else t :: u :: us

/-- Stable ascending sort by translateY (line 59). -/
def sortY : List TElem → List TElem
  | [] => []
  | t :: ts => insertY t (sortY ts)

/-- Title selection of start() lines 62-69 on the sorted element list:
first title-like element, else (when that is Python-falsy and elements exist)
the first element with more than one word, else the first element. -/
def rawTitle (tes : List TElem) : Option String :=
  let t0 := (tes.find? fun t => t.is_title).map TElem.text
  if t0.getD "" = "" ∧ tes ≠ [] then
    match tes.find? fun t => 1 < pyWordCount t.text with
    | some t => some t.text
    | none =>
      match tes with
      | [] => some "Untitled"
      | t :: _ => some t.text
  else t0

/-- `re.sub(r'^[0-9]+[\.\)\s]*', '', title)`: if the text starts with a digit,
remove the maximal digit run and then the maximal run of dots, closing
parentheses and whitespace. -/
def stripNumbering (cs : List Char) : List Char :=
  match cs with
  | [] => []
  | c :: rest =>
    if c.isDigit then
      ((c :: rest).dropWhile Char.isDigit).dropWhile fun d => d = '.' || d = ')' || isPySpace d
    else c :: rest

/-- `re.sub(r'[\:\-\—]+$', '', title)`: remove the trailing run of colons,
hyphens and em-dashes. -/
def stripTrailingPunct (cs : List Char) : List Char :=
  (cs.reverse.dropWhile fun c => c = ':' || c = '-' || c = '—').reverse

/-- Capitalization step of clean_title (lines 113-114): uppercase the first
character if it exists and is lowercase. -/
def capFirst : List Char → List Char
  | [] => []
  | c :: cs => if c.isLower then c.toUpper :: cs else c :: cs

/-- SlideExtractorSpider.clean_title (lines 102-116), including both Python
falsiness tests (`if not title` and `return title or "Untitled"`). -/
def clean_title (t : Option String) : String :=
  match t with
  | none => "Untitled"
  | some s =>
    if s = "" then "Untitled"
    else if capFirst (stripChars (stripTrailingPunct (stripNumbering s.data))) = [] then
      "Untitled"
    else ⟨capFirst (stripChars (stripTrailingPunct (stripNumbering s.data)))⟩

/-- Shared tail of the answer construction (build_description lines 129-142):
sentinel on an empty survivor list, else join with `". "`, append a final dot
if absent, and collapse whitespace runs. -/
def descriptionTail (parts : List String) : String :=
  match parts with
  | [] => "No description available"
  | _ :: _ =>
    let d := pyJoin ". " parts
    let d2 := if endsWithDot d then d else d ++ "."
    collapseWS d2

/-- SlideExtractorSpider.build_description (lines 118-142): drop each element
whose stripped text equals the passed title or has fewer than two words. -/
def build_description (tes : List TElem) (title : String) : String :=
  descriptionTail (tes.filterMap fun t =>
    if pyStrip t.text = title ∨ pyWordCount (pyStrip t.text) < 2 then none
    else some (pyStrip t.text))

/-- The sorted element list of one slide. -/
def sortedElems (slide : List PageElem) : List TElem :=
  sortY (collectTextElems slide)

/-- The question of one slide: line 72 cleans the raw title before any
further use. -/
def slideQuestion (slide : List PageElem) : String :=
  clean_title (rawTitle (sortedElems slide))

/-- The answer of one slide: line 75 passes the CLEANED title to
build_description. -/
def slideAnswer (slide : List PageElem) : String :=
  build_description (sortedElems slide) (slideQuestion slide)

/-- Image search of start() lines 78-81: first element with an image
contentUrl. -/
def findImage (slide : List PageElem) : Option String :=
  (slide.filterMap PageElem.image).head?

/-- Emission step of start() lines 83-90 for one slide, with the Python
truthiness of `if title or description or image_url:`. -/
def processSlide (slide : List PageElem) : Option FAQRecord :=
  if slideQuestion slide ≠ "" ∨ slideAnswer slide ≠ "" ∨ (findImage slide).getD "" ≠ "" then
    some ⟨some (slideQuestion slide), some (slideAnswer slide), "Google Slide Presentation",
          ["google", "slide", "extracted"], findImage slide⟩
  else none

/-- Environment of one SlideExtractorSpider run: the
GOOGLE_SERVICE_ACCOUNT_FILE setting, whether the credential load succeeds,
and the fetched slide list (`none` = the presentations().get call raises). -/
structure SlideEnv where
  serviceAccountFile : Option String
  credOk : Bool
  fetched : Option (List (List PageElem))
  deriving Repr

/-- SlideExtractorSpider.start (lines 11-90) as a whole run: each guard
(missing or empty setting, credential error, API error) returns with nothing
emitted; otherwise every slide goes through processSlide once. -/
def slideSpiderRun (env : SlideEnv) : List FAQRecord :=
  match env.serviceAccountFile with
  | none => []
  | some f =>
    if f = "" then []
    else if env.credOk = false then []
    else
      match env.fetched with
      | none => []
      | some slides => slides.filterMap processSlide

/-- Answer construction as the spec words it (§4.5 step 6), parameterized by
the question text used for the exclusion: from the sorted element list keep
the elements whose text differs from the question and has at least two words,
then join, dot-terminate and collapse. -/
def answerPerSpec (tes : List TElem) (q : String) : String :=
  descriptionTail ((tes.filter fun t =>
    !(t.text == q) && !(decide (pyWordCount t.text < 2))).map TElem.text)

/-- The C1 claim verbatim: the exclusion compares against the UNCLEANED
question text (the raw title before clean_title), where no element is
excluded by title when no raw title exists. -/
def answerClaimUncleaned (slide : List PageElem) : String :=
  descriptionTail (((sortedElems slide).filter fun t =>
    (match rawTitle (sortedElems slide) with
     | none => true
     | some q => !(t.text == q)) && !(decide (pyWordCount t.text < 2))).map TElem.text)

/-- Counterexample slide for C1: a bold 24pt heading whose raw text
"1. important benefits:" differs from its cleaned form "Important benefits"
and has three words, plus one body element. -/
def c1slide : List PageElem :=
  [⟨some [⟨"1. important benefits:", true, 24⟩], 10, none⟩,
   ⟨some [⟨"You must apply online now.", false, 12⟩], 50, none⟩]

/-- Witness slide for C4: one plain two-word text element. -/
def c4slide : List PageElem :=
  [⟨some [⟨"Hello world", false, 12⟩], 0, none⟩]

/-- Witness page for C10: an active category and one grid item. -/
def c10page : KRAPage :=
  ⟨some "VAT", [⟨some "Q", ["A"]⟩], none⟩

/-- The record c10page emits. -/
def c10rec : FAQRecord :=
  ⟨some "Q", some "A", "VAT", ["VAT"], none⟩

theorem data_append (a b : String) : (a ++ b).data = a.data ++ b.data := rfl

theorem data_ne_nil {s : String} (h : s ≠ "") : s.data ≠ [] := by
  intro hd
  exact h (String.ext_iff.mpr (hd.trans rfl))

theorem hasLeadingWS_dropWhile (l : List Char) : hasLeadingWS (l.dropWhile isPySpace) = false := by
  induction l with
  | nil => rfl
  | cons c cs ih =>
    rw [List.dropWhile_cons]
    by_cases h : isPySpace c = true
    · rw [if_pos h]; exact ih
    · rw [if_neg h]
      unfold hasLeadingWS
      simpa using h

theorem getLast?_dropWhile_ne (p : Char → Bool) :
    ∀ l : List Char, l.dropWhile p ≠ [] → (l.dropWhile p).getLast? = l.getLast?
  | [], h => absurd rfl h
  | c :: cs, h => by
    rw [List.dropWhile_cons] at h ⊢
    by_cases hc : p c = true
    · rw [if_pos hc] at h ⊢
      have hcs : cs ≠ [] := by
        intro e
        subst e
        exact h rfl
      rw [getLast?_dropWhile_ne p cs h]
      cases cs with
      | nil => exact absurd rfl hcs
      | cons d ds => rw [List.getLast?_cons_cons]
    · rw [if_neg hc]

theorem hasTrailingWS_reverse (l : List Char) : hasTrailingWS l.reverse = hasLeadingWS l := by
  unfold hasTrailingWS hasLeadingWS
  rw [List.getLast?_reverse]

theorem stripChars_noTrail (l : List Char) : hasTrailingWS (stripChars l) = false := by
  have h := hasLeadingWS_dropWhile (l.dropWhile isPySpace).reverse
  unfold stripChars hasTrailingWS
  unfold hasLeadingWS at h
  rw [List.getLast?_reverse]
  exact h

theorem stripChars_noLead (l : List Char) : hasLeadingWS (stripChars l) = false := by
  unfold stripChars hasLeadingWS
  rw [List.head?_reverse]
  by_cases h : (l.dropWhile isPySpace).reverse.dropWhile isPySpace = []
  · rw [h]; rfl
  · rw [getLast?_dropWhile_ne _ _ h, List.getLast?_reverse]
    have h2 := hasLeadingWS_dropWhile l
    unfold hasLeadingWS at h2
    exact h2

theorem dropWhile_noLead (l : List Char) (h : hasLeadingWS l = false) :
    l.dropWhile isPySpace = l := by
  cases l with
  | nil => rfl
  | cons c cs =>
    unfold hasLeadingWS at h
    simp only [List.head?_cons, Option.map_some', Option.getD_some] at h
    rw [List.dropWhile_cons, if_neg (by simp [h])]

theorem stripChars_noop (l : List Char) (h1 : hasLeadingWS l = false)
    (h2 : hasTrailingWS l = false) : stripChars l = l := by
  unfold stripChars
  rw [dropWhile_noLead l h1]
  have h3 : hasLeadingWS l.reverse = false := by
    unfold hasLeadingWS
    unfold hasTrailingWS at h2
    rw [List.head?_reverse]
    exact h2
  rw [dropWhile_noLead _ h3, List.reverse_reverse]

theorem stripChars_idem (l : List Char) : stripChars (stripChars l) = stripChars l :=
  stripChars_noop _ (stripChars_noLead l) (stripChars_noTrail l)

theorem pyStrip_idem (s : String) : pyStrip (pyStrip s) = pyStrip s := by
  unfold pyStrip
  exact congrArg String.mk (stripChars_idem s.data)

theorem hasDoubleWS_tail {c : Char} {cs : List Char} (h : hasDoubleWS (c :: cs) = false) :
    hasDoubleWS cs = false := by
  cases cs with
  | nil => rfl
  | cons d ds =>
    unfold hasDoubleWS at h
    exact (Bool.or_eq_false_iff.mp h).2

theorem hasDoubleWS_dropWhile (p : Char → Bool) (l : List Char) (h : hasDoubleWS l = false) :
    hasDoubleWS (l.dropWhile p) = false := by
  induction l with
  | nil => rfl
  | cons c cs ih =>
    rw [List.dropWhile_cons]
    by_cases hc : p c = true
    · rw [if_pos hc]; exact ih (hasDoubleWS_tail h)
    · rw [if_neg hc]; exact h

theorem hasTrailingWS_cons_cons (a b : Char) (l : List Char) :
    hasTrailingWS (a :: b :: l) = hasTrailingWS (b :: l) := by
  unfold hasTrailingWS
  rw [List.getLast?_cons_cons]

theorem hasDoubleWS_snoc (c : Char) : ∀ xs : List Char,
    hasDoubleWS (xs ++ [c]) = (hasDoubleWS xs || (hasTrailingWS xs && isPySpace c))
  | [] => by simp [hasDoubleWS, hasTrailingWS]
  | [a] => by simp [hasDoubleWS, hasTrailingWS]
  | a :: b :: rest => by
    have ih := hasDoubleWS_snoc c (b :: rest)
    rw [List.cons_append] at ih ⊢
    rw [List.cons_append]
    show ((isPySpace a && isPySpace b) || hasDoubleWS (b :: (rest ++ [c]))) = _
    rw [ih, hasTrailingWS_cons_cons]
    show _ = (((isPySpace a && isPySpace b) || hasDoubleWS (b :: rest))
              || (hasTrailingWS (b :: rest) && isPySpace c))
    rw [Bool.or_assoc]

theorem hasDoubleWS_reverse : ∀ l : List Char, hasDoubleWS l.reverse = hasDoubleWS l
  | [] => rfl
  | c :: cs => by
    rw [List.reverse_cons, hasDoubleWS_snoc, hasDoubleWS_reverse cs, hasTrailingWS_reverse]
    cases cs with
    | nil => simp [hasDoubleWS, hasLeadingWS]
    | cons d ds =>
      show (hasDoubleWS (d :: ds) || (hasLeadingWS (d :: ds) && isPySpace c)) = _
      unfold hasLeadingWS
      simp only [List.head?_cons, Option.map_some', Option.getD_some]
      show _ = ((isPySpace c && isPySpace d) || hasDoubleWS (d :: ds))
      rw [Bool.or_comm, Bool.and_comm]

theorem hasDoubleWS_strip (l : List Char) (h : hasDoubleWS l = false) :
    hasDoubleWS (stripChars l) = false := by
  unfold stripChars
  rw [hasDoubleWS_reverse]
  exact hasDoubleWS_dropWhile _ _ (by rw [hasDoubleWS_reverse]; exact hasDoubleWS_dropWhile _ _ h)

theorem hasLeadingWS_append (xs ys : List Char) (h : xs ≠ []) :
    hasLeadingWS (xs ++ ys) = hasLeadingWS xs := by
  unfold hasLeadingWS
  rw [List.head?_append_of_ne_nil _ h]

theorem hasTrailingWS_append (xs ys : List Char) (h : ys ≠ []) :
    hasTrailingWS (xs ++ ys) = hasTrailingWS ys := by
  unfold hasTrailingWS
  rw [List.getLast?_append_of_ne_nil _ h]

theorem hasDoubleWS_append : ∀ xs ys : List Char,
    hasDoubleWS xs = false → hasDoubleWS ys = false →
    (hasTrailingWS xs = false ∨ hasLeadingWS ys = false) →
    hasDoubleWS (xs ++ ys) = false
  | [], ys, _, hy, _ => hy
  | [c], ys, _, hy, hb => by
    cases ys with
    | nil => rfl
    | cons d ds =>
      show ((isPySpace c && isPySpace d) || hasDoubleWS (d :: ds)) = false
      have hcd : (isPySpace c && isPySpace d) = false := by
        rcases hb with hb | hb
        · unfold hasTrailingWS at hb
          simp only [List.getLast?_singleton, Option.map_some', Option.getD_some] at hb
          simp [hb]
        · unfold hasLeadingWS at hb
          simp only [List.head?_cons, Option.map_some', Option.getD_some] at hb
          simp [hb]
      rw [hcd, hy]
      rfl
  | c :: c2 :: rest, ys, hx, hy, hb => by
    have hb2 : hasTrailingWS (c2 :: rest) = false ∨ hasLeadingWS ys = false := by
      rcases hb with hb | hb
      · rw [hasTrailingWS_cons_cons] at hb; exact Or.inl hb
      · exact Or.inr hb
    have ih := hasDoubleWS_append (c2 :: rest) ys (hasDoubleWS_tail hx) hy hb2
    rw [List.cons_append, List.cons_append]
    rw [List.cons_append] at ih
    show ((isPySpace c && isPySpace c2) || hasDoubleWS (c2 :: (rest ++ ys))) = false
    have hcc : (isPySpace c && isPySpace c2) = false := by
      have := hx
      unfold hasDoubleWS at this
      exact (Bool.or_eq_false_iff.mp this).1
    rw [hcc, ih]
    rfl

theorem pyJoin_clean : ∀ parts : List String,
    (∀ p ∈ parts, p ≠ "" ∧ hasLeadingWS p.data = false ∧ hasTrailingWS p.data = false) →
    (hasLeadingWS (pyJoin " " parts).data = false
     ∧ hasTrailingWS (pyJoin " " parts).data = false
     ∧ ((∀ p ∈ parts, hasDoubleWS p.data = false) → hasDoubleWS (pyJoin " " parts).data = false)
     ∧ (parts ≠ [] → (pyJoin " " parts).data ≠ []))
  | [], _ => ⟨rfl, rfl, fun _ => rfl, fun h => absurd rfl h⟩
  | [s], h => by
    obtain ⟨h1, h2, h3⟩ := h s (by simp)
    exact ⟨h2, h3, fun hd => hd s (by simp), fun _ => data_ne_nil h1⟩
  | s :: t :: rest, h => by
    have ih := pyJoin_clean (t :: rest) (fun p hp => h p (List.mem_cons_of_mem s hp))
    obtain ⟨ihL, ihT, ihD, ihN⟩ := ih
    obtain ⟨hs1, hs2, hs3⟩ := h s (by simp)
    have hJ : (pyJoin " " (t :: rest)).data ≠ [] := ihN (by simp)
    have e : (pyJoin " " (s :: t :: rest)).data
        = s.data ++ (' ' :: (pyJoin " " (t :: rest)).data) := by
      show ((s ++ " ") ++ pyJoin " " (t :: rest)).data = _
      rw [data_append, data_append, List.append_assoc]
      rfl
    refine ⟨?_, ?_, ?_, ?_⟩
    · rw [e, hasLeadingWS_append _ _ (data_ne_nil hs1)]
      exact hs2
    · rw [e, hasTrailingWS_append _ _ (by simp)]
      show hasTrailingWS ([' '] ++ (pyJoin " " (t :: rest)).data) = false
      rw [hasTrailingWS_append _ _ hJ]
      exact ihT
    · intro hd
      rw [e]
      have hsd := hd s (by simp)
      have hJd : hasDoubleWS (pyJoin " " (t :: rest)).data = false :=
        ihD (fun p hp => hd p (List.mem_cons_of_mem s hp))
      have hmid : hasDoubleWS (' ' :: (pyJoin " " (t :: rest)).data) = false := by
        show hasDoubleWS ([' '] ++ (pyJoin " " (t :: rest)).data) = false
        exact hasDoubleWS_append [' '] _ rfl hJd (Or.inr ihL)
      exact hasDoubleWS_append _ _ hsd hmid (Or.inl hs3)
    · intro _
      rw [e]
      intro he
      exact data_ne_nil hs1 (List.append_eq_nil.mp he).1

theorem normalize_parts_mem {F : List String} {p : String}
    (hp : p ∈ F.filterMap fun q => if pyStrip q = "" then none else some (pyStrip q)) :
    (∃ q ∈ F, p = pyStrip q) ∧ p ≠ "" := by
  rw [List.mem_filterMap] at hp
  obtain ⟨q, hqF, hq⟩ := hp
  by_cases h : pyStrip q = ""
  · rw [if_pos h] at hq
    exact absurd hq (by simp)
  · rw [if_neg h] at hq
    have hpq : p = pyStrip q := (Option.some_inj.mp hq).symm
    subst hpq
    exact ⟨⟨q, hqF, rfl⟩, h⟩

theorem pyStrip_empty : pyStrip "" = "" := rfl

/-- C9: the text normalizer is idempotent: for every string x, normalizing the
single-fragment list containing normalize([x]) returns normalize([x])
unchanged. -/
theorem C9_normalize_idempotent (x : String) : normalize [normalize [x]] = normalize [x] := by
  by_cases h : pyStrip x = ""
  · have e1 : normalize [x] = "" := by
      simp [normalize, List.filterMap_cons, h, pyJoin]
    rw [e1]
    simp [normalize, List.filterMap_cons, pyStrip_empty, pyJoin]
  · have e1 : normalize [x] = pyStrip x := by
      simp [normalize, List.filterMap_cons, h, pyJoin]
    rw [e1]
    simp [normalize, List.filterMap_cons, pyStrip_idem x, h, pyJoin]

/-- C2 as amended: normalize(F) has no leading or trailing whitespace, and
when no single fragment contains two consecutive whitespace characters the
output contains none either; whitespace runs inside one fragment are kept
as-is (only fragment edges are trimmed), so the unconditional no-double-space
claim fails (see the counterexample). -/
theorem C2_amended_normalize (F : List String) :
    hasLeadingWS (normalize F).data = false
    ∧ hasTrailingWS (normalize F).data = false
    ∧ ((∀ s ∈ F, hasDoubleWS s.data = false) → hasDoubleWS (normalize F).data = false) := by
  have hparts : ∀ p ∈ F.filterMap fun q => if pyStrip q = "" then none else some (pyStrip q),
      p ≠ "" ∧ hasLeadingWS p.data = false ∧ hasTrailingWS p.data = false := by
    intro p hp
    obtain ⟨⟨q, _, rfl⟩, hne⟩ := normalize_parts_mem hp
    exact ⟨hne, stripChars_noLead q.data, stripChars_noTrail q.data⟩
  obtain ⟨h1, h2, h3, _⟩ := pyJoin_clean _ hparts
  refine ⟨h1, h2, fun hF => h3 ?_⟩
  intro p hp
  obtain ⟨⟨q, hqF, rfl⟩, _⟩ := normalize_parts_mem hp
  exact hasDoubleWS_strip q.data (hF q hqF)

/-- C2 counterexample: the normalizer does not collapse a whitespace run that
sits inside a single fragment, so the claimed no-two-consecutive-whitespace
property fails at F = ["a  b"]. -/
theorem C2_counterexample :
    normalize ["a  b"] = "a  b" ∧ hasDoubleWS (normalize ["a  b"]).data = true := by
  constructor
  · rfl
  · decide

/-- Witness for C2_amended_normalize at the concrete fragment list
["ab", "cd e"]. -/
theorem C2_witness :
    hasLeadingWS (normalize ["ab", "cd e"]).data = false
    ∧ hasTrailingWS (normalize ["ab", "cd e"]).data = false
    ∧ hasDoubleWS (normalize ["ab", "cd e"]).data = false :=
  ⟨(C2_amended_normalize ["ab", "cd e"]).1,
   (C2_amended_normalize ["ab", "cd e"]).2.1,
   (C2_amended_normalize ["ab", "cd e"]).2.2 (by decide)⟩

/-- C3 as amended: when the question selector yields nothing the question
field is the null sentinel; the question field can be the empty string, but
only when the selector yields a nonempty whitespace-only string (Python
truthiness lets such a string through before stripping empties it). -/
theorem C3_amended_question_null_policy (c : ECContainer) :
    (c.questionSel = none → (ecitizenParseItem c).question = none)
    ∧ ((ecitizenParseItem c).question = some "" →
        ∃ s, c.questionSel = some s ∧ s ≠ "" ∧ stripChars s.data = []) := by
  constructor
  · intro h
    simp [ecitizenParseItem, h]
  · intro h
    unfold ecitizenParseItem at h
    cases hq : c.questionSel with
    | none =>
      rw [hq] at h
      have h2 : (none : Option String) = some "" := h
      simp at h2
    | some s =>
      rw [hq] at h
      have h2 : (if s = "" then (none : Option String) else some (pyStrip s)) = some "" := h
      by_cases hs : s = ""
      · rw [if_pos hs] at h2; simp at h2
      · rw [if_neg hs] at h2
        simp only [Option.some_inj] at h2
        refine ⟨s, rfl, hs, ?_⟩
        have := congrArg String.data h2
        simpa [pyStrip] using this

/-- C3 counterexample: a whitespace-only (hence Python-truthy) selector result
is stripped to the empty string, so the emitted question field IS the empty
string, contradicting the claim that it never is. -/
theorem C3_counterexample : (ecitizenParseItem ⟨some " ", []⟩).question = some "" := by
  decide

/-- Witness for C3_amended_question_null_policy: both implications discharged
at concrete containers. -/
theorem C3_witness :
    (ecitizenParseItem ⟨none, []⟩).question = none
    ∧ ∃ s, (some " " : Option String) = some s ∧ s ≠ "" ∧ stripChars s.data = [] :=
  ⟨(C3_amended_question_null_policy ⟨none, []⟩).1 rfl,
   (C3_amended_question_null_policy ⟨some " ", []⟩).2 (by decide)⟩

theorem clean_title_ne_empty (t : Option String) : clean_title t ≠ "" := by
  cases t with
  | none => simp [clean_title]
  | some s =>
    simp only [clean_title]
    by_cases hs : s = ""
    · rw [if_pos hs]; simp
    · rw [if_neg hs]
      by_cases h3 : capFirst (stripChars (stripTrailingPunct (stripNumbering s.data))) = []
      · rw [if_pos h3]; simp
      · rw [if_neg h3]
        intro he
        exact h3 (String.ext_iff.mp he)

/-- C4: the emission conditional of the slide adapter never filters a slide
out, because the cleaned question always falls back to a nonempty sentinel;
in particular every slide with at least one collected text element yields a
record. -/
theorem C4_slide_with_text_emits (slide : List PageElem)
    (h : collectTextElems slide ≠ []) : (processSlide slide).isSome = true := by
  unfold processSlide
  have hq : slideQuestion slide ≠ "" := clean_title_ne_empty (rawTitle (sortedElems slide))
  rw [if_pos (Or.inl hq)]
  rfl

/-- Witness for C4_slide_with_text_emits at a one-element slide. -/
theorem C4_witness : (processSlide c4slide).isSome = true :=
  C4_slide_with_text_emits c4slide (by decide)

/-- C5: the accessibility-label adapter on the two specified inputs: a
well-formed aria-label splits into question and answer; a missing aria-label
falls back to the plain text node and the fixed sentinel answer. -/
theorem C5_sha_adapter_vectors :
    parseSha ⟨some "Question: How do I register?, Answer: Visit the portal.", none⟩
      = some ⟨some "How do I register?", some "Visit the portal.",
              "Social Health Authority", ["SHA", "health", "Kenya"], none⟩
    ∧ parseSha ⟨none, some "How do I register?"⟩
      = some ⟨some "How do I register?", some "Could not find aria-label.",
              "Social Health Authority", ["SHA", "health", "Kenya"], none⟩ := by
  exact ⟨by decide, by decide⟩

/-- C6: a category page with two grid items and a Next link followed by a
terminal page with one item yields exactly three records, all tagged with the
same active-category name, in page order; the result is independent of any
extra fuel. -/
theorem C6_pagination_three_records : ∀ n : Nat, crawl c6pages (n + 2) 0 =
    some [⟨some "Q1", some "A1", "VAT", ["VAT"], none⟩,
          ⟨some "Q2", some "A2", "VAT", ["VAT"], none⟩,
          ⟨some "Q3", some "A3", "VAT", ["VAT"], none⟩] :=
  fun _ => rfl

theorem crawl_isSome_eq_halts (pages : Nat → KRAPage) :
    ∀ n s : Nat, (crawl pages n s).isSome = haltsWithin pages n s
  | 0, _ => rfl
  | n + 1, s => by
    simp only [crawl, haltsWithin]
    cases h : (pages s).nextLink with
    | none => rfl
    | some nxt =>
      show (Option.map (fun rs => parseCategoryItems (pages s) ++ rs)
              (crawl pages n nxt)).isSome = haltsWithin pages n nxt
      rw [← crawl_isSome_eq_halts pages n nxt]
      cases crawl pages n nxt <;> rfl

theorem crawl_cycle_none : ∀ n : Nat, crawl cyclePages n 0 = none
  | 0 => rfl
  | n + 1 => by
    show (crawl cyclePages n 0).map _ = none
    rw [crawl_cycle_none n]
    rfl

/-- C7: the per-category traversal with fuel n terminates exactly when the
chain of Next links reaches a page with no Next link within n steps (so a
finite forward chain terminates at its Next-less page), and on a page graph
whose pagination links form a cycle the traversal never terminates (no fuel
suffices). -/
theorem C7_traversal_termination :
    (∀ (pages : Nat → KRAPage) (n s : Nat), (crawl pages n s).isSome = haltsWithin pages n s)
    ∧ (∀ n : Nat, crawl cyclePages n 0 = none) :=
  ⟨crawl_isSome_eq_halts, crawl_cycle_none⟩

/-- C8: when the credential-file setting is absent, the credential load fails,
or the remote presentation fetch fails, the slide adapter run emits zero
records; each guard returns immediately and no step is retried. -/
theorem C8_upstream_failure_no_records (env : SlideEnv)
    (h : env.serviceAccountFile = none ∨ env.credOk = false ∨ env.fetched = none) :
    slideSpiderRun env = [] := by
  obtain ⟨sf, cred, fetched⟩ := env
  rcases h with h | h | h
  · have h1 : sf = none := h
    subst h1
    rfl
  · have h1 : cred = false := h
    subst h1
    cases sf with
    | none => rfl
    | some f =>
      by_cases hfe : f = ""
      · simp [slideSpiderRun, hfe]
      · simp [slideSpiderRun, hfe]
  · have h1 : fetched = none := h
    subst h1
    cases sf with
    | none => rfl
    | some f =>
      by_cases hfe : f = ""
      · simp [slideSpiderRun, hfe]
      · by_cases hc : cred = false
        · simp [slideSpiderRun, hfe, hc]
        · simp [slideSpiderRun, hfe, hc]

/-- Witness for C8_upstream_failure_no_records with the setting absent. -/
theorem C8_witness : slideSpiderRun ⟨none, true, some [[]]⟩ = [] :=
  C8_upstream_failure_no_records ⟨none, true, some [[]]⟩ (Or.inl rfl)

/-- C10: in every record of the paginated-category adapter, tags is either
the empty list — exactly when the active-category selector result is
Python-falsy (None or empty, the two cases `if category_name` merges), in
which case the category is the "General" default — or the single-element
list holding exactly the record's category, namely the stripped
active-category name. -/
theorem C10_tags_match_category (p : KRAPage) (r : FAQRecord)
    (hr : r ∈ parseCategoryItems p) :
    (r.tags = [] ↔ (p.activeCategory = none ∨ p.activeCategory = some ""))
    ∧ ((p.activeCategory = none ∨ p.activeCategory = some "") → r.category = "General")
    ∧ (∀ c, p.activeCategory = some c → c ≠ "" →
        r.tags = [pyStrip c] ∧ r.category = pyStrip c)
    ∧ (r.tags = [] ∨ r.tags = [r.category]) := by
  unfold parseCategoryItems at hr
  rw [List.mem_map] at hr
  obtain ⟨it, hit, hr⟩ := hr
  subst hr
  cases hc : p.activeCategory with
  | none => simp
  | some c =>
    by_cases hce : c = ""
    · subst hce
      simp
    · simp [hce]

/-- Witness for C10_tags_match_category at a concrete page and record, with
every hypothesis discharged: the record of the "VAT" page carries tags
["VAT"] equal to its category. -/
theorem C10_witness :
    (c10rec.tags = [] ↔ (c10page.activeCategory = none ∨ c10page.activeCategory = some ""))
    ∧ (c10rec.tags = [pyStrip "VAT"] ∧ c10rec.category = pyStrip "VAT")
    ∧ (c10rec.tags = [] ∨ c10rec.tags = [c10rec.category]) :=
  ⟨(C10_tags_match_category c10page c10rec (by decide)).1,
   (C10_tags_match_category c10page c10rec (by decide)).2.2.1 "VAT" rfl (by decide),
   (C10_tags_match_category c10page c10rec (by decide)).2.2.2⟩

theorem mem_insertY {t u : TElem} : ∀ {l : List TElem}, u ∈ insertY t l → u = t ∨ u ∈ l
  | [], h => by
    unfold insertY at h
    exact Or.inl (List.mem_singleton.mp h)
  | v :: vs, h => by
    unfold insertY at h
    by_cases hv : v.translateY < t.translateY
    · rw [if_pos hv] at h
      rcases List.mem_cons.mp h with h | h
      · exact Or.inr (List.mem_cons.mpr (Or.inl h))
      · rcases mem_insertY h with h | h
        · exact Or.inl h
        · exact Or.inr (List.mem_cons.mpr (Or.inr h))
    · rw [if_neg hv] at h
      rcases List.mem_cons.mp h with h | h
      · exact Or.inl h
      · exact Or.inr h

theorem mem_sortY {u : TElem} : ∀ {l : List TElem}, u ∈ sortY l → u ∈ l
  | [], h => by
    unfold sortY at h
    exact absurd h (List.not_mem_nil u)
  | v :: vs, h => by
    unfold sortY at h
    rcases mem_insertY h with h | h
    · rw [h]; exact List.mem_cons_self v vs
    · exact List.mem_cons_of_mem v (mem_sortY h)

theorem collect_text_stripped {slide : List PageElem} {t : TElem}
    (h : t ∈ collectTextElems slide) : pyStrip t.text = t.text := by
  unfold collectTextElems at h
  rw [List.mem_filterMap] at h
  obtain ⟨e, _, he⟩ := h
  cases hs : e.shapeText with
  | none =>
    rw [hs] at he
    exact absurd he (by simp)
  | some runs =>
    rw [hs] at he
    have he2 : (if pyStrip (String.join (runs.map SlideTextRun.content)) = ""
        then (none : Option TElem)
        else some ⟨pyStrip (String.join (runs.map SlideTextRun.content)),
                   e.translateY, is_title_element runs⟩) = some t := he
    by_cases ht : pyStrip (String.join (runs.map SlideTextRun.content)) = ""
    · rw [if_pos ht] at he2
      exact absurd he2 (by simp)
    · rw [if_neg ht] at he2
      obtain rfl := Option.some_inj.mp he2
      exact pyStrip_idem (String.join (runs.map SlideTextRun.content))

theorem filter_parts_eq (q : String) : ∀ tes : List TElem,
    (∀ t ∈ tes, pyStrip t.text = t.text) →
    (tes.filterMap fun t =>
       if pyStrip t.text = q ∨ pyWordCount (pyStrip t.text) < 2 then none
       else some (pyStrip t.text))
    = (tes.filter fun t => !(t.text == q) && !(decide (pyWordCount t.text < 2))).map TElem.text
  | [], _ => rfl
  | t :: ts, h => by
    have ht : pyStrip t.text = t.text := h t (List.mem_cons_self t ts)
    have ih := filter_parts_eq q ts (fun u hu => h u (List.mem_cons_of_mem t hu))
    by_cases hc : t.text = q ∨ pyWordCount t.text < 2
    · have hnone : (if pyStrip t.text = q ∨ pyWordCount (pyStrip t.text) < 2
          then (none : Option String) else some (pyStrip t.text)) = none := by
        rw [ht]
        exact if_pos hc
      have hpred : (!(t.text == q) && !(decide (pyWordCount t.text < 2))) = false := by
        rcases hc with hc | hc <;> simp [hc]
      rw [@List.filterMap_cons_none TElem String
            (fun t => if pyStrip t.text = q ∨ pyWordCount (pyStrip t.text) < 2 then none
                      else some (pyStrip t.text)) t ts hnone,
          @List.filter_cons_of_neg TElem
            (fun t => !(t.text == q) && !(decide (pyWordCount t.text < 2))) t ts
            (by simp [hpred])]
      exact ih
    · push_neg at hc
      have hsome : (if pyStrip t.text = q ∨ pyWordCount (pyStrip t.text) < 2
          then (none : Option String) else some (pyStrip t.text)) = some t.text := by
        rw [ht]
        rw [if_neg (by push_neg; exact hc)]
      have hpred : (!(t.text == q) && !(decide (pyWordCount t.text < 2))) = true := by
        simp [hc.1, hc.2]
      rw [@List.filterMap_cons_some TElem String
            (fun t => if pyStrip t.text = q ∨ pyWordCount (pyStrip t.text) < 2 then none
                      else some (pyStrip t.text)) t ts t.text hsome,
          @List.filter_cons_of_pos TElem
            (fun t => !(t.text == q) && !(decide (pyWordCount t.text < 2))) t ts hpred]
      rw [List.map_cons, ih]

theorem build_eq_spec (tes : List TElem) (q : String)
    (h : ∀ t ∈ tes, pyStrip t.text = t.text) :
    build_description tes q = answerPerSpec tes q := by
  unfold build_description answerPerSpec
  rw [filter_parts_eq q tes h]

/-- C1 as amended: for every slide, the answer is built from the
vertically-sorted text elements by excluding the element whose text equals
the CLEANED question text (the output of clean_title, which line 75 passes to
build_description) and every element with fewer than two words, joining the
survivors with ". ", appending a trailing "." if absent and collapsing
whitespace runs, with the sentinel on no survivors. -/
theorem C1_amended_answer_from_cleaned_title (slide : List PageElem) :
    slideAnswer slide = answerPerSpec (sortedElems slide) (slideQuestion slide) := by
  unfold slideAnswer
  exact build_eq_spec _ _ (fun t ht => collect_text_stripped (mem_sortY ht))

/-- C1 counterexample: on a slide whose heading has raw text
"1. important benefits:" (cleaned to "Important benefits"), the code compares
elements against the cleaned title, so the raw heading text survives into the
answer; excluding by the UNCLEANED question text, as the claim states, would
have removed it. -/
theorem C1_counterexample :
    slideAnswer c1slide = "1. important benefits:. You must apply online now."
    ∧ answerClaimUncleaned c1slide = "You must apply online now."
    ∧ slideAnswer c1slide ≠ answerClaimUncleaned c1slide :=
  ⟨by decide, by decide, by decide⟩

end GovFAQ
